import Mathlib

/-!
Shallow embedding of `src/rgb2aled.ino` (WS2812B 1/2-pixel controller,
hand-written AVR assembly running on an ATmega328P).

The embedding has two layers, both translated instruction-by-instruction
from the assembly in `loop()`:

* a byte-level layer for the capture / commit data path
  (`READ_BIT` / `READ_BYTE` macros, `start_frame`, `capture_start`,
  `update_now`), where a frame's decoded bits are presented as a
  `List Bool` in arrival order and the working registers r16..r21 are
  natural numbers below 256;

* a cycle-level layer for the relay phase (`relay_entry`, `relay_bit`),
  where the input line is a waveform `Nat → Bool` (cycle index ↦ line
  level), and each AVR instruction advances an explicit cycle counter by
  its documented cost (sbis/sbic: 1 cycle, 2 when skipping a 1-word
  instruction; cbi/sbi/rjmp: 2 cycles; nop: 1 cycle; jmp: 3 cycles).
-/

namespace Rgb2aled

/-! ## Byte-level capture model -/

/-- One `READ_BIT reg` update of the shift register: `lsl \reg` (shift
left through the 8-bit register, the top bit falling out into carry,
i.e. `2*r % 256`), then `ori \reg, 1` executed exactly when the line is
sampled high (the `sbic`-guarded `ori`).  The shifted value is even, so
the `ori` is `+ 1`. -/
def read_bit_acc (r : Nat) (b : Bool) : Nat :=
  2 * r % 256 + (if b then 1 else 0)

/-- Result of feeding a group of bits into a register: either all
requested bits were available (`done`, with the bits remaining in the
frame), or the line went idle first and `READ_BIT` is still busy-waiting
for a rising edge (`blocked`, carrying the register contents at the
block point — `lsl` happens only after a rising edge is seen, so a
blocked `READ_BIT` has not touched the register). -/
inductive ByteOut where
  | done (v : Nat) (rest : List Bool) : ByteOut
  | blocked (v : Nat) : ByteOut
deriving Repr, DecidableEq

/-- Shift `n` successive bits of the stream into register `r`
(`READ_BIT` iterated `n` times). -/
def read_bits (r : Nat) : Nat → List Bool → ByteOut
  | 0, s => .done r s
  | _ + 1, [] => .blocked r
  | n + 1, b :: s => read_bits (read_bit_acc r b) n s

/-- `READ_BYTE reg`: exactly eight `READ_BIT reg` invocations. -/
def read_byte (r : Nat) (s : List Bool) : ByteOut := read_bits r 8 s

/-- The six working registers of the capture data path, in the roles the
source assigns them: r16 = G1, r17 = R1, r18 = B1, r19 = G2, r20 = R2,
r21 = B2. -/
structure Regs where
  r16 : Nat
  r17 : Nat
  r18 : Nat
  r19 : Nat
  r20 : Nat
  r21 : Nat
deriving Repr, DecidableEq

/-- The six PWM duty registers written by the commit phase, with the pin
/ channel each drives:  OCR1A = D9 LED1 red, OCR1B = D10 LED1 green,
OCR2A = D11 LED1 blue, OCR2B = D3 LED2 red, OCR0B = D5 LED2 green,
OCR0A = D6 LED2 blue. -/
structure Ocrs where
  ocr1a : Nat
  ocr1b : Nat
  ocr2a : Nat
  ocr2b : Nat
  ocr0b : Nat
  ocr0a : Nat
deriving Repr, DecidableEq

/-- Outcome of the capture phase: `done` with the registers and the
bits left over for the relay phase, or `blocked` mid-capture (the frame
ran out of bits; `READ_BIT` busy-waits and the registers stay as they
were at the block point). -/
inductive CapOut where
  | done (regs : Regs) (rest : List Bool) : CapOut
  | blocked (regs : Regs) : CapOut
deriving Repr, DecidableEq

/-- The register file visible in a capture outcome. -/
def CapOut.regs : CapOut → Regs
  | .done r _ => r
  | .blocked r => r

/-- `capture_start`: `READ_BYTE r16` (G1), `READ_BYTE r17` (R1),
`READ_BYTE r18` (B1), and — only when `TWO_LEDS` is defined (`two`) —
`READ_BYTE r19` (G2), `READ_BYTE r20` (R2), `READ_BYTE r21` (B2). -/
def capture_start (two : Bool) (regs : Regs) (s : List Bool) : CapOut :=
  match read_byte regs.r16 s with
  | .blocked v => .blocked { regs with r16 := v }
  | .done v1 s1 =>
    match read_byte regs.r17 s1 with
    | .blocked v => .blocked { regs with r16 := v1, r17 := v }
    | .done v2 s2 =>
      match read_byte regs.r18 s2 with
      | .blocked v => .blocked { regs with r16 := v1, r17 := v2, r18 := v }
      | .done v3 s3 =>
        if two then
          match read_byte regs.r19 s3 with
          | .blocked v => .blocked { regs with r16 := v1, r17 := v2, r18 := v3, r19 := v }
          | .done v4 s4 =>
            match read_byte regs.r20 s4 with
            | .blocked v =>
                .blocked { regs with r16 := v1, r17 := v2, r18 := v3, r19 := v4, r20 := v }
            | .done v5 s5 =>
              match read_byte regs.r21 s5 with
              | .blocked v =>
                  .blocked { regs with r16 := v1, r17 := v2, r18 := v3, r19 := v4, r20 := v5, r21 := v }
              | .done v6 s6 =>
                  .done { r16 := v1, r17 := v2, r18 := v3, r19 := v4, r20 := v5, r21 := v6 } s6
        else
          .done { regs with r16 := v1, r17 := v2, r18 := v3 } s3

/-- `start_frame`: executed once at power-on, before the initial reset
synchronisation.  When `TWO_LEDS` is *not* defined it loads
`r19 := r20 := r21 := 255` (`ldi`, 255 = OFF for the inverted signal);
when `TWO_LEDS` is defined it does nothing. -/
def start_frame (two : Bool) (regs : Regs) : Regs :=
  if two then regs else { regs with r19 := 255, r20 := 255, r21 := 255 }

/-- AVR `com reg`: one's complement, `0xFF - reg` on the 8-bit value. -/
def com (v : Nat) : Nat := 255 - v % 256

/-- `update_now`: invert the captured values for the common-anode LEDs
(`com r16`/`r17`/`r18`, and `com r19`/`r20`/`r21` only when `TWO_LEDS`),
then commit them to the PWM registers
(`sts OCR1A, r17` / `sts OCR1B, r16` / `sts OCR2A, r18` /
`sts OCR2B, r20` / `sts OCR0B, r19` / `sts OCR0A, r21`).
Returns the register file after the `com`s (it flows into the next
frame's capture) together with the committed duty values. -/
def update_now (two : Bool) (regs : Regs) : Regs × Ocrs :=
  let r16 := com regs.r16
  let r17 := com regs.r17
  let r18 := com regs.r18
  let r19 := if two then com regs.r19 else regs.r19
  let r20 := if two then com regs.r20 else regs.r20
  let r21 := if two then com regs.r21 else regs.r21
  (⟨r16, r17, r18, r19, r20, r21⟩,
   { ocr1a := r17, ocr1b := r16, ocr2a := r18, ocr2b := r20, ocr0b := r19, ocr0a := r21 })

/-- The frame loop after power-on synchronisation: each frame is
captured (`capture_start`), then — once the relay phase's reset
detector fires — committed (`update_now`), and `jmp capture_start_%=`
starts the next frame.  The relay phase forwards bits without touching
r16..r21 or the OCR registers, so it is transparent at this layer; a
frame whose capture blocks never reaches `update_now`. -/
def run_frames (two : Bool) : Regs → List (List Bool) → Regs × List Ocrs
  | regs, [] => (regs, [])
  | regs, s :: frames =>
    match capture_start two regs s with
    | .blocked r => (r, [])
    | .done r _ =>
      ((run_frames two (update_now two r).1 frames).1,
       (update_now two r).2 :: (run_frames two (update_now two r).1 frames).2)

/-- Most-significant-bit-first value of a bit list, shifted into an
accumulator `a` (the mathematical reading of repeated
`lsl` + conditional `ori 1`, without the mod-256 truncation). -/
def valM (a : Nat) : List Bool → Nat
  | [] => a
  | b :: s => valM (2 * a + (if b then 1 else 0)) s

/-! ## Cycle-level relay model

The relay phase is modelled at instruction granularity.  The input line
is a waveform `w : Nat → Bool` giving the level of D7 at each cycle; a
machine state is the cycle at which the next instruction starts together
with the level currently driven on the output line D2.  Instruction
costs are the ATmega328P's: `sbis`/`sbic` take 1 cycle, or 2 when they
skip the following 1-word instruction; `sbi`/`cbi`/`rjmp` take 2 cycles;
`nop` takes 1; `jmp` takes 3. -/

/-- Machine state for the relay phase: `t` is the cycle at which the
next instruction starts executing, `out` the level on the output line
D2. -/
structure MState where
  t : Nat
  out : Bool
deriving Repr, DecidableEq

/-- `cbi 0x0b, data_out` — drive the output line low (2 cycles). -/
def cbiOut (s : MState) : MState := ⟨s.t + 2, false⟩

/-- `sbi 0x0b, data_out` — drive the output line high (2 cycles). -/
def sbiOut (s : MState) : MState := ⟨s.t + 2, true⟩

/-- `nop` (1 cycle). -/
def nop1 (s : MState) : MState := ⟨s.t + 1, s.out⟩

/-- `rjmp .+0` — the deliberate 2-cycle no-op on the 1-bit path. -/
def rjmpSync (s : MState) : MState := ⟨s.t + 2, s.out⟩

/-- `jmp label` (3 cycles). -/
def jmp3 (s : MState) : MState := ⟨s.t + 3, s.out⟩

/-- Execution record of one `relay_bit` body: the state at which control
re-enters `relay_entry_%=`, and the completion cycles of every executed
`cbi data_out` (the cycle at whose end the output line is low). -/
structure BitRun where
  st : MState
  drops : List Nat
deriving Repr, DecidableEq

/-- The `relay_bit_%=` body, instruction by instruction:

    sbis 0x09, data_in   -- sample D7; skip the cbi when high
    cbi  0x0b, data_out  -- (0-path only) drop D2: short high pulse
    sbic 0x09, data_in   -- sample D7 again; skip the rjmp when low
    rjmp .+0             -- (1-path only) sync cycle count
    nop
    cbi  0x0b, data_out  -- drop D2 (no-op on the 0-path, already low)
    jmp  relay_entry_%=

Entered with the output line already high (raised by `relay_entry`'s
`sbi`). -/
def relay_bit (w : Nat → Bool) (s0 : MState) : BitRun :=
  let hi1 := w s0.t
  let s1 : MState := ⟨s0.t + (if hi1 then 2 else 1), s0.out⟩
  let s2 := if hi1 then s1 else cbiOut s1
  let d2 : List Nat := if hi1 then [] else [s1.t + 1]
  let hi2 := w s2.t
  let s3 : MState := ⟨s2.t + (if hi2 then 1 else 2), s2.out⟩
  let s4 := if hi2 then rjmpSync s3 else s3
  let s5 := nop1 s4
  let s6 := cbiOut s5
  ⟨jmp3 s6, d2 ++ [s5.t + 1]⟩

/-- The exit path of one `.rept` iteration of `relay_entry_%=` when the
`sbis` poll sees the line high: `sbis` skips the `rjmp` (2 cycles),
`sbi data_out` raises the output line, `jmp relay_bit_%=`.  Returns the
state at `relay_bit_%=` entry together with the cycle at whose end the
output line went high (the relayed rising edge). -/
def relay_entry_edge (s : MState) : MState × Nat :=
  let s1 : MState := ⟨s.t + 2, s.out⟩
  let s2 := sbiOut s1
  (jmp3 s2, s1.t + 1)

/-- Outcome of the `relay_entry_%=` polling loop: a rising edge was seen
(`edge`, with the state at `relay_bit_%=` entry and the output-rise
cycle), or all 256 `.rept` iterations saw the line low and
`jmp update_now_%=` is taken (`reset`). -/
inductive EntryOut where
  | edge (s : MState) (rise : Nat) : EntryOut
  | reset (s : MState) : EntryOut
deriving Repr, DecidableEq

/-- The `.rept 256` polling loop with `n` iterations left.  A low poll
costs 3 cycles (`sbis` 1 cycle, `rjmp .+6` 2 cycles); a high poll exits
through `relay_entry_edge`; exhausting the repetitions falls through to
`jmp update_now_%=`. -/
def relay_entry_aux (w : Nat → Bool) : Nat → MState → EntryOut
  | 0, s => .reset (jmp3 s)
  | n + 1, s =>
    if w s.t then .edge (relay_entry_edge s).1 (relay_entry_edge s).2
    else relay_entry_aux w n ⟨s.t + 3, s.out⟩

/-- `relay_entry_%=`: the full 256-iteration idle-gap budget. -/
def relay_entry (w : Nat → Bool) (s : MState) : EntryOut := relay_entry_aux w 256 s

/-- The relay phase: alternate `relay_entry` and `relay_bit` until the
idle-gap budget is exhausted, which is the unique jump to
`update_now_%=`.  `fuel` bounds the number of relayed bits so the
recursion is total; the result is the machine state at the jump to the
commit phase, or `none` if the fuel ran out first. -/
def relay_phase (w : Nat → Bool) : Nat → MState → Option MState
  | 0, _ => none
  | fuel + 1, s =>
    match relay_entry w s with
    | .reset r => some r
    | .edge s2 _ => relay_phase w fuel (relay_bit w s2).st

/-- The 24 decoded channel bits of the spec's concrete scenario:
green = 0x00, red = 0xFF, blue = 0x80, most-significant bit first. -/
def sampleFrame24 : List Bool :=
  List.replicate 8 false ++ List.replicate 8 true ++ (true :: List.replicate 7 false)

/-! ## Basic lemmas about the capture data path -/

theorem read_bit_acc_eq (r : Nat) (b : Bool) :
    read_bit_acc r b = (2 * r + (if b then 1 else 0)) % 256 := by
  cases b
  · simp [read_bit_acc]
  · simp [read_bit_acc]; omega

theorem read_bit_acc_lt (r : Nat) (b : Bool) : read_bit_acc r b < 256 := by
  cases b <;> (simp [read_bit_acc]; omega)

theorem valM_shift (s : List Bool) : ∀ a : Nat, valM a s = a * 2 ^ s.length + valM 0 s := by
  induction s with
  | nil => intro a; simp [valM]
  | cons b s ih =>
    intro a
    simp only [valM, List.length_cons]
    rw [ih (2 * a + (if b then 1 else 0)), ih (2 * 0 + (if b then 1 else 0))]
    ring

theorem valM_lt (s : List Bool) : valM 0 s < 2 ^ s.length := by
  induction s with
  | nil => simp [valM]
  | cons b s ih =>
    simp only [valM, List.length_cons]
    rw [valM_shift, pow_succ]
    have hb : (if b then 1 else 0) ≤ 1 := by cases b <;> simp
    nlinarith [pow_pos (show 0 < 2 by norm_num) s.length]

theorem read_bits_spec (s : List Bool) : ∀ r : Nat, r < 256 → ∀ rest : List Bool,
    read_bits r s.length (s ++ rest) = .done (valM r s % 256) rest := by
  induction s with
  | nil =>
    intro r hr rest
    simp [read_bits, valM, Nat.mod_eq_of_lt hr]
  | cons b s ih =>
    intro r hr rest
    simp only [List.length_cons, List.cons_append, read_bits, List.append_eq]
    rw [ih (read_bit_acc r b) (read_bit_acc_lt r b) rest]
    have h1 : valM (read_bit_acc r b) s % 256
        = valM (2 * r + (if b then 1 else 0)) s % 256 := by
      rw [read_bit_acc_eq]
      conv_lhs => rw [valM_shift]
      conv_rhs => rw [valM_shift]
      exact ((Nat.mod_modEq (2 * r + (if b then 1 else 0)) 256).mul_right
        (2 ^ s.length)).add_right (valM 0 s)
    rw [h1]
    rfl

theorem read_byte_full (s : List Bool) (h : s.length = 8) (r : Nat) (hr : r < 256)
    (rest : List Bool) : read_byte r (s ++ rest) = .done (valM 0 s) rest := by
  have hs := read_bits_spec s r hr rest
  rw [h] at hs
  rw [read_byte, hs]
  have hv : valM 0 s < 256 := by
    have := valM_lt s
    rw [h] at this
    norm_num at this
    exact this
  congr 1
  rw [valM_shift, h]
  have h8 : (2 : Nat) ^ 8 = 256 := by norm_num
  rw [h8]
  omega

theorem com_lt (v : Nat) : com v < 256 := by
  unfold com; omega

theorem read_bits_done_len : ∀ (n : Nat) (s : List Bool) (r v : Nat) (rest : List Bool),
    read_bits r n s = .done v rest → rest.length + n = s.length := by
  intro n
  induction n with
  | zero =>
    intro s r v rest h
    simp only [read_bits, ByteOut.done.injEq] at h
    obtain ⟨-, rfl⟩ := h
    simp
  | succ n ih =>
    intro s r v rest h
    cases s with
    | nil => simp [read_bits] at h
    | cons b s =>
      simp only [read_bits] at h
      have := ih s (read_bit_acc r b) v rest h
      simp only [List.length_cons]
      omega

/-- A completed 24-bit capture in one-pixel mode, with the frame split
into its three 8-bit channel groups. -/
theorem capture_one_seg (regs : Regs) (h16 : regs.r16 < 256) (h17 : regs.r17 < 256)
    (h18 : regs.r18 < 256) (s1 s2 s3 rest : List Bool)
    (l1 : s1.length = 8) (l2 : s2.length = 8) (l3 : s3.length = 8) :
    capture_start false regs (s1 ++ (s2 ++ (s3 ++ rest))) =
      .done { regs with r16 := valM 0 s1, r17 := valM 0 s2, r18 := valM 0 s3 } rest := by
  unfold capture_start
  rw [read_byte_full s1 l1 regs.r16 h16]
  dsimp only
  rw [read_byte_full s2 l2 regs.r17 h17]
  dsimp only
  rw [read_byte_full s3 l3 regs.r18 h18]
  simp

/-- A completed 48-bit capture in two-pixel mode, with the frame split
into its six 8-bit channel groups. -/
theorem capture_two_seg (regs : Regs) (h16 : regs.r16 < 256) (h17 : regs.r17 < 256)
    (h18 : regs.r18 < 256) (h19 : regs.r19 < 256) (h20 : regs.r20 < 256)
    (h21 : regs.r21 < 256) (s1 s2 s3 s4 s5 s6 rest : List Bool)
    (l1 : s1.length = 8) (l2 : s2.length = 8) (l3 : s3.length = 8)
    (l4 : s4.length = 8) (l5 : s5.length = 8) (l6 : s6.length = 8) :
    capture_start true regs (s1 ++ (s2 ++ (s3 ++ (s4 ++ (s5 ++ (s6 ++ rest)))))) =
      .done ⟨valM 0 s1, valM 0 s2, valM 0 s3, valM 0 s4, valM 0 s5, valM 0 s6⟩ rest := by
  unfold capture_start
  rw [read_byte_full s1 l1 regs.r16 h16]
  dsimp only
  rw [read_byte_full s2 l2 regs.r17 h17]
  dsimp only
  rw [read_byte_full s3 l3 regs.r18 h18]
  dsimp only
  rw [read_byte_full s4 l4 regs.r19 h19]
  dsimp only
  rw [read_byte_full s5 l5 regs.r20 h20]
  dsimp only
  rw [read_byte_full s6 l6 regs.r21 h21]
  simp

/-- In two-pixel mode a frame that ends after exactly 24 bits completes
pixel 1's three bytes and then blocks at the first `READ_BIT` of G2,
leaving r19, r20, r21 untouched. -/
theorem capture_two_seg24 (regs : Regs) (h16 : regs.r16 < 256) (h17 : regs.r17 < 256)
    (h18 : regs.r18 < 256) (s1 s2 s3 : List Bool)
    (l1 : s1.length = 8) (l2 : s2.length = 8) (l3 : s3.length = 8) :
    capture_start true regs (s1 ++ (s2 ++ s3)) =
      .blocked { regs with r16 := valM 0 s1, r17 := valM 0 s2, r18 := valM 0 s3 } := by
  have h3 : s1 ++ (s2 ++ s3) = s1 ++ (s2 ++ (s3 ++ [])) := by simp
  rw [h3]
  unfold capture_start
  rw [read_byte_full s1 l1 regs.r16 h16]
  dsimp only
  rw [read_byte_full s2 l2 regs.r17 h17]
  dsimp only
  rw [read_byte_full s3 l3 regs.r18 h18]
  simp [read_byte, read_bits]

/-- One-pixel capture never touches the pixel-2 registers, whether it
completes or blocks. -/
theorem capture_one_preserve (regs : Regs) (s : List Bool) :
    (capture_start false regs s).regs.r19 = regs.r19 ∧
    (capture_start false regs s).regs.r20 = regs.r20 ∧
    (capture_start false regs s).regs.r21 = regs.r21 := by
  unfold capture_start
  cases read_byte regs.r16 s with
  | blocked v => simp [CapOut.regs]
  | done v1 s1 =>
    dsimp only
    cases read_byte regs.r17 s1 with
    | blocked v => simp [CapOut.regs]
    | done v2 s2 =>
      dsimp only
      cases read_byte regs.r18 s2 with
      | blocked v => simp [CapOut.regs]
      | done v3 s3 => simp [CapOut.regs]

/-- Two-pixel capture on a frame of at most 24 bits never reaches the
pixel-2 bytes: r19, r20, r21 keep whatever they held before. -/
theorem capture_two_preserve_le24 (regs : Regs) (s : List Bool) (h : s.length ≤ 24) :
    (capture_start true regs s).regs.r19 = regs.r19 ∧
    (capture_start true regs s).regs.r20 = regs.r20 ∧
    (capture_start true regs s).regs.r21 = regs.r21 := by
  unfold capture_start
  cases hE1 : read_byte regs.r16 s with
  | blocked v => simp [CapOut.regs]
  | done v1 s1 =>
    have hl1 := read_bits_done_len 8 s regs.r16 v1 s1 hE1
    dsimp only
    cases hE2 : read_byte regs.r17 s1 with
    | blocked v => simp [CapOut.regs]
    | done v2 s2 =>
      have hl2 := read_bits_done_len 8 s1 regs.r17 v2 s2 hE2
      dsimp only
      cases hE3 : read_byte regs.r18 s2 with
      | blocked v => simp [CapOut.regs]
      | done v3 s3 =>
        have hl3 := read_bits_done_len 8 s2 regs.r18 v3 s3 hE3
        have hnil : s3 = [] := List.length_eq_zero.mp (by omega)
        subst hnil
        simp [read_byte, read_bits, CapOut.regs]

/-! ## Lemmas about the relay phase -/

/-- A relayed 0-bit (the line already low at the first sample and still
low at the second): the first `cbi` drops the output at cycle `t + 2`,
the trailing `cbi` at `t + 7` is a no-op on an already-low line, and
control re-enters `relay_entry_%=` at cycle `t + 11`. -/
theorem relay_bit_low (w : Nat → Bool) (s : MState)
    (h1 : w s.t = false) (h2 : w (s.t + 3) = false) :
    relay_bit w s = ⟨⟨s.t + 11, false⟩, [s.t + 2, s.t + 7]⟩ := by
  have h2' : w (s.t + 1 + 2) = false := by
    rw [show s.t + 1 + 2 = s.t + 3 from by omega]; exact h2
  simp [relay_bit, h1, h2', cbiOut, nop1, jmp3, rjmpSync, BitRun.mk.injEq, MState.mk.injEq,
    List.cons.injEq]

/-- A relayed 1-bit (the line still high at both samples): the `sbis`
skips the early `cbi`, the `rjmp .+0` burns the balancing two cycles,
the trailing `cbi` drops the output at cycle `t + 7`, and control
re-enters `relay_entry_%=` at cycle `t + 11` — the same re-entry cycle
as the 0-bit path. -/
theorem relay_bit_high (w : Nat → Bool) (s : MState)
    (h1 : w s.t = true) (h2 : w (s.t + 2) = true) :
    relay_bit w s = ⟨⟨s.t + 11, false⟩, [s.t + 7]⟩ := by
  simp [relay_bit, h1, h2, cbiOut, nop1, jmp3, rjmpSync, BitRun.mk.injEq, MState.mk.injEq,
    List.cons.injEq]

/-- Whatever the waveform, every path through `relay_bit_%=` executes
the trailing `cbi data_out` immediately before the `jmp`: the output
line is low when control re-enters `relay_entry_%=`. -/
theorem relay_bit_out_false (w : Nat → Bool) (s : MState) :
    (relay_bit w s).st.out = false := rfl

/-- If every one of the next `n` polls (3 cycles apart) sees the line
low, the `.rept` block falls through to `jmp update_now_%=`. -/
theorem relay_entry_aux_low (w : Nat → Bool) :
    ∀ (n : Nat) (s : MState), (∀ j, j < n → w (s.t + 3 * j) = false) →
      relay_entry_aux w n s = .reset ⟨s.t + 3 * n + 3, s.out⟩ := by
  intro n
  induction n with
  | zero => intro s _; simp [relay_entry_aux, jmp3]
  | succ n ih =>
    intro s h
    have h0 : w s.t = false := by
      have := h 0 (Nat.succ_pos n)
      simpa using this
    rw [relay_entry_aux, h0]
    simp only [Bool.false_eq_true, if_false]
    have hrec := ih ⟨s.t + 3, s.out⟩ ?_
    · rw [hrec]
      simp [EntryOut.reset.injEq, MState.mk.injEq]
      all_goals omega
    · intro j hj
      have := h (j + 1) (by omega)
      rw [show s.t + 3 + 3 * j = s.t + 3 * (j + 1) from by ring]
      exact this

/-- If the polls see the line low at checks `0..k-1` and high at check
`k` (with `k` inside the budget of `n` remaining checks), the loop exits
through the edge path: the output line is raised (completing at cycle
`t + 3k + 3`) and control reaches `relay_bit_%=` at cycle `t + 3k + 7`,
regardless of how much budget was left. -/
theorem relay_entry_aux_edge (w : Nat → Bool) :
    ∀ (k n : Nat) (s : MState), k < n → (∀ j, j < k → w (s.t + 3 * j) = false) →
      w (s.t + 3 * k) = true →
      relay_entry_aux w n s = .edge ⟨s.t + 3 * k + 7, true⟩ (s.t + 3 * k + 3) := by
  intro k
  induction k with
  | zero =>
    intro n s hn hlow hedge
    cases n with
    | zero => omega
    | succ n =>
      have h0 : w s.t = true := by simpa using hedge
      rw [relay_entry_aux, h0]
      simp [relay_entry_edge, sbiOut, jmp3, EntryOut.edge.injEq, MState.mk.injEq]
  | succ k ih =>
    intro n s hn hlow hedge
    cases n with
    | zero => omega
    | succ n =>
      have h0 : w s.t = false := by
        have := hlow 0 (Nat.succ_pos k)
        simpa using this
      rw [relay_entry_aux, h0]
      simp only [Bool.false_eq_true, if_false]
      have hrec := ih n ⟨s.t + 3, s.out⟩ (by omega) ?_ ?_
      · rw [hrec]
        simp [EntryOut.edge.injEq, MState.mk.injEq]
        all_goals omega
      · intro j hj
        have := hlow (j + 1) (by omega)
        rw [show s.t + 3 + 3 * j = s.t + 3 * (j + 1) from by ring]
        exact this
      · have := hedge
        rw [show s.t + 3 + 3 * k = s.t + 3 * (k + 1) from by ring]
        exact this

/-- The fall-through path of the polling loop never touches the output
line: the state at `jmp update_now_%=` carries the output level the loop
was entered with. -/
theorem relay_entry_aux_reset_out (w : Nat → Bool) :
    ∀ (n : Nat) (s r : MState), relay_entry_aux w n s = .reset r → r.out = s.out := by
  intro n
  induction n with
  | zero =>
    intro s r h
    simp only [relay_entry_aux, jmp3, EntryOut.reset.injEq] at h
    rw [← h]
  | succ n ih =>
    intro s r h
    rw [relay_entry_aux] at h
    by_cases hw : w s.t
    · rw [hw] at h; simp at h
    · simp only [hw, Bool.false_eq_true, if_false] at h
      exact ih ⟨s.t + 3, s.out⟩ r h

/-- Across the whole relay phase: entered with the output line low, the
state handed to the commit phase has the output line low. -/
theorem relay_phase_out_false (w : Nat → Bool) :
    ∀ (fuel : Nat) (s r : MState), s.out = false → relay_phase w fuel s = some r →
      r.out = false := by
  intro fuel
  induction fuel with
  | zero => intro s r _ h; simp [relay_phase] at h
  | succ fuel ih =>
    intro s r hout h
    rw [relay_phase] at h
    cases hE : relay_entry w s with
    | reset q =>
      rw [hE] at h
      simp only [Option.some.injEq] at h
      rw [← h, relay_entry_aux_reset_out w 256 s q hE]
      exact hout
    | edge s2 rise =>
      rw [hE] at h
      exact ih (relay_bit w s2).st r (relay_bit_out_false w s2) h

/-- Invariant for the one-pixel build: if r19, r20, r21 hold the OFF
sentinel 255 when the frame loop starts, every committed `Ocrs` drives
the three pixel-2 channels with 255. -/
theorem run_frames_one_pixel_off (frames : List (List Bool)) :
    ∀ regs : Regs, regs.r19 = 255 → regs.r20 = 255 → regs.r21 = 255 →
      ∀ o : Ocrs, o ∈ (run_frames false regs frames).2 →
        o.ocr2b = 255 ∧ o.ocr0b = 255 ∧ o.ocr0a = 255 := by
  induction frames with
  | nil =>
    intro regs _ _ _ o ho
    simp [run_frames] at ho
  | cons s frames ih =>
    intro regs h19 h20 h21 o ho
    simp only [run_frames] at ho
    obtain ⟨hp19, hp20, hp21⟩ := capture_one_preserve regs s
    cases hc : capture_start false regs s with
    | blocked r =>
      rw [hc] at ho
      simp at ho
    | done r rest =>
      rw [hc] at ho
      rw [hc] at hp19 hp20 hp21
      simp only [CapOut.regs] at hp19 hp20 hp21
      dsimp only at ho
      rcases List.mem_cons.mp ho with rfl | hmem
      · refine ⟨?_, ?_, ?_⟩ <;> simp [update_now, hp19, hp20, hp21, h19, h20, h21]
      · refine ih (update_now false r).1 ?_ ?_ ?_ o hmem <;>
          simp [update_now, hp19, hp20, hp21, h19, h20, h21]

/-! ## The claims -/

/-- Claim C1: in the one-pixel configuration, a frame whose three
captured channel bytes are green = 0x00, red = 0xFF, blue = 0x80
(followed by relayed bits and an idle gap reaching the reset threshold)
commits red duty = 255 - 0xFF on OCR1A, green duty = 255 - 0x00 on
OCR1B and blue duty = 255 - 0x80 on OCR2A: the first captured byte
feeds the green output, the second red, the third blue, each inverted
(`com`, i.e. `255 - v`) before commit.  Holds from any power-on
register contents. -/
theorem c1_scenario_a (regs0 : Regs)
    (h16 : regs0.r16 < 256) (h17 : regs0.r17 < 256) (h18 : regs0.r18 < 256) :
    (run_frames false (start_frame false regs0) [sampleFrame24]).2 =
      [{ ocr1a := 255 - 0xFF, ocr1b := 255 - 0x00, ocr2a := 255 - 0x80,
         ocr2b := 255, ocr0b := 255, ocr0a := 255 }] := by
  have hsplit : sampleFrame24 =
      List.replicate 8 false ++
        (List.replicate 8 true ++ ((true :: List.replicate 7 false) ++ [])) := by
    simp [sampleFrame24]
  have hcap := capture_one_seg (start_frame false regs0)
      (by simpa [start_frame] using h16) (by simpa [start_frame] using h17)
      (by simpa [start_frame] using h18)
      (List.replicate 8 false) (List.replicate 8 true) (true :: List.replicate 7 false) []
      (by simp) (by simp) (by simp)
  simp only [run_frames]
  rw [hsplit, hcap]
  dsimp only
  simp [update_now, com, start_frame]
  decide

theorem c1_scenario_a_witness :
    (run_frames false (start_frame false ⟨0, 0, 0, 0, 0, 0⟩) [sampleFrame24]).2 =
      [{ ocr1a := 255 - 0xFF, ocr1b := 255 - 0x00, ocr2a := 255 - 0x80,
         ocr2b := 255, ocr0b := 255, ocr0a := 255 }] :=
  c1_scenario_a ⟨0, 0, 0, 0, 0, 0⟩ (by decide) (by decide) (by decide)

/-- Claim C2: the two per-bit relay paths are timing-balanced.  For a
0-bit waveform (low at both samples) and a 1-bit waveform (high at both
samples) entered at the same cycle, control re-enters the polling loop
at the same cycle `t + 11`; and the edge-in to edge-out latency is
constant across both paths because the output line is raised by
`relay_entry`'s edge path — completing 3 cycles after the poll that saw
the edge, reaching `relay_bit_%=` 7 cycles after it — before the 0/1
distinction is even sampled. -/
theorem c2_balanced_paths (t u : Nat) (o o2 : Bool) (w0 w1 : Nat → Bool)
    (h00 : w0 t = false) (h01 : w0 (t + 3) = false)
    (h10 : w1 t = true) (h11 : w1 (t + 2) = true) :
    (relay_bit w0 ⟨t, o⟩).st.t = (relay_bit w1 ⟨t, o⟩).st.t ∧
    (relay_bit w0 ⟨t, o⟩).st.t = t + 11 ∧
    (relay_entry_edge ⟨u, o2⟩).2 = u + 3 ∧
    (relay_entry_edge ⟨u, o2⟩).1.t = u + 7 ∧
    (relay_entry_edge ⟨u, o2⟩).1.out = true := by
  rw [relay_bit_low w0 ⟨t, o⟩ h00 h01, relay_bit_high w1 ⟨t, o⟩ h10 h11]
  simp [relay_entry_edge, sbiOut, jmp3]

theorem c2_balanced_paths_witness :
    (relay_bit (fun _ => false) ⟨0, false⟩).st.t = (relay_bit (fun _ => true) ⟨0, false⟩).st.t ∧
    (relay_bit (fun _ => false) ⟨0, false⟩).st.t = 0 + 11 ∧
    (relay_entry_edge ⟨5, false⟩).2 = 5 + 3 ∧
    (relay_entry_edge ⟨5, false⟩).1.t = 5 + 7 ∧
    (relay_entry_edge ⟨5, false⟩).1.out = true :=
  c2_balanced_paths 0 5 false false (fun _ => false) (fun _ => true) rfl rfl rfl rfl

/-- Claim C3 is false on the code: on the 1-bit path `relay_bit_%=`
does not wait for the input to fall.  With an input that stays high
through cycle 24 (falling only at cycle 25), the output line is dropped
by the fixed trailing `cbi` completing at cycle 15 — while the input is
still high — so the relayed 1-bit's high pulse ends at a fixed duration,
not when the input's high pulse ends. -/
theorem c3_counterexample :
    (∀ u, u < 25 → (fun v => decide (v < 25)) u = true) ∧
    (fun v => decide (v < 25)) 25 = false ∧
    (relay_bit (fun v => decide (v < 25)) ⟨8, true⟩).drops = [15] ∧
    (relay_bit (fun v => decide (v < 25)) ⟨8, true⟩).st.out = false := by
  refine ⟨?_, ?_, ?_, ?_⟩ <;> decide

/-- Claim C3 (amended): after the post-edge sample, if the input has
fallen the output line is dropped immediately (the early `cbi`,
completing 2 cycles after the sample); otherwise (input still high, a
1-bit) the output line is dropped at the fixed cycle `t + 7` — a
constant high-pulse duration independent of when the input actually
falls — and the output is low on exit either way. -/
theorem c3_amended (w w0 : Nat → Bool) (s : MState)
    (h1 : w s.t = true) (h2 : w (s.t + 2) = true) (hw0 : w0 s.t = false) :
    (relay_bit w s).drops = [s.t + 7] ∧
    (relay_bit w s).st.out = false ∧
    (relay_bit w0 s).drops.head? = some (s.t + 2) := by
  rw [relay_bit_high w s h1 h2]
  refine ⟨rfl, rfl, ?_⟩
  simp [relay_bit, hw0, cbiOut, nop1, jmp3, rjmpSync]

theorem c3_amended_witness :
    (relay_bit (fun v => decide (v < 25)) ⟨8, true⟩).drops = [15] ∧
    (relay_bit (fun v => decide (v < 25)) ⟨8, true⟩).st.out = false ∧
    (relay_bit (fun _ => false) ⟨8, true⟩).drops.head? = some 10 :=
  c3_amended (fun v => decide (v < 25)) (fun _ => false) ⟨8, true⟩ (by decide) (by decide) rfl

/-- Claim C4: idle-gap detection.  If the poll sees the line low at
checks `0..k-1` and a rising edge at check `k < 256`, the loop exits to
`relay_bit_%=` (the edge is treated as another relayed bit, no commit);
after that bit, re-entering the loop restores the full 256-check
budget, so with the line low from then on the jump to `update_now_%=`
happens exactly once, 771 cycles after re-entry (at `s.t + 3k + 789`) —
`relay_phase` yields exactly this one commit point.  A line low for all
256 checks reaches `update_now_%=` directly; and during the continued
idle gap control sits in `capture_start`'s first `READ_BIT` busy-wait
(`blocked`), so no further commit can fire until a new edge arrives. -/
theorem c4_idle_gap (w : Nat → Bool) (s s2 : MState) (k : Nat) (two : Bool) (regs : Regs)
    (hk : k < 256)
    (hlow : ∀ j, j < k → w (s.t + 3 * j) = false)
    (hedge : w (s.t + 3 * k) = true)
    (hafter : ∀ u, s.t + 3 * k < u → w u = false)
    (hlow2 : ∀ j, j < 256 → w (s2.t + 3 * j) = false) :
    relay_entry w s = .edge ⟨s.t + 3 * k + 7, true⟩ (s.t + 3 * k + 3) ∧
    relay_phase w 2 s = some ⟨s.t + 3 * k + 789, false⟩ ∧
    relay_entry w s2 = .reset ⟨s2.t + 771, s2.out⟩ ∧
    capture_start two regs [] = .blocked regs := by
  have hE : relay_entry w s = .edge ⟨s.t + 3 * k + 7, true⟩ (s.t + 3 * k + 3) :=
    relay_entry_aux_edge w k 256 s hk hlow hedge
  have hb1 : w (s.t + 3 * k + 7) = false := hafter _ (by omega)
  have hb2 : w (s.t + 3 * k + 7 + 3) = false := hafter _ (by omega)
  have hbit := relay_bit_low w ⟨s.t + 3 * k + 7, true⟩ hb1 hb2
  have hR2 := relay_entry_aux_low w 256 ⟨s.t + 3 * k + 7 + 11, false⟩
      (fun j hj => hafter _ (by dsimp only; omega))
  refine ⟨hE, ?_, ?_, rfl⟩
  · simp only [relay_phase]
    rw [hE]
    dsimp only
    rw [hbit]
    dsimp only
    simp only [relay_entry]
    rw [hR2]
  · simp only [relay_entry]
    rw [relay_entry_aux_low w 256 s2 hlow2]

set_option maxRecDepth 10000 in
theorem c4_idle_gap_witness :
    relay_entry (fun u => decide (u = 3)) ⟨0, false⟩ = .edge ⟨10, true⟩ 6 ∧
    relay_phase (fun u => decide (u = 3)) 2 ⟨0, false⟩ = some ⟨792, false⟩ ∧
    relay_entry (fun u => decide (u = 3)) ⟨4, false⟩ = .reset ⟨775, false⟩ ∧
    capture_start true ⟨1, 2, 3, 4, 5, 6⟩ [] = .blocked ⟨1, 2, 3, 4, 5, 6⟩ :=
  c4_idle_gap (fun u => decide (u = 3)) ⟨0, false⟩ ⟨4, false⟩ 1 true ⟨1, 2, 3, 4, 5, 6⟩
    (by omega)
    (by intro j hj; have hj0 : j = 0 := by omega
        subst hj0; rfl)
    rfl
    (by intro u hu; have : u ≠ 3 := by omega
        simp [this])
    (by decide)

/-- Claim C5: the output line is never left high into the idle gap.
Whatever the waveform, every exit of `relay_bit_%=` (each point where
the forwarder resumes waiting for the next edge) has the output low —
the trailing `cbi data_out` runs on every path — and consequently the
relay phase, entered with the output low after capture, hands a
low-output state to the commit phase. -/
theorem c5_output_low (w w2 : Nat → Bool) (fuel : Nat) (s r s2 : MState)
    (hout : s.out = false) (hrun : relay_phase w fuel s = some r) :
    r.out = false ∧ (relay_bit w2 s2).st.out = false :=
  ⟨relay_phase_out_false w fuel s r hout hrun, relay_bit_out_false w2 s2⟩

theorem c5_output_low_witness :
    (MState.mk 771 false).out = false ∧
    (relay_bit (fun _ => true) ⟨9, true⟩).st.out = false := by
  have hrun : relay_phase (fun _ => false) 1 ⟨0, false⟩ = some ⟨771, false⟩ := by
    simp only [relay_phase, relay_entry]
    rw [relay_entry_aux_low (fun _ => false) 256 ⟨0, false⟩ (fun j hj => rfl)]
  exact c5_output_low (fun _ => false) (fun _ => true) 1 ⟨0, false⟩ ⟨771, false⟩ ⟨9, true⟩
    rfl hrun

/-- Claim C6: `READ_BYTE` assembles its eight decoded bits
most-significant-bit-first — the byte equals
`b1*128 + b2*64 + b3*32 + b4*16 + b5*8 + b6*4 + b7*2 + b8` — and it
consumes exactly 8 bits of the stream; `capture_start` runs it on
exactly 3 bytes (24 bits) in the one-pixel configuration and exactly 6
bytes (48 bits) in the two-pixel configuration, leaving precisely the
remaining bits for the relay phase. -/
theorem c6_msb_first (r : Nat) (hr : r < 256)
    (b1 b2 b3 b4 b5 b6 b7 b8 : Bool) (brest : List Bool)
    (regs : Regs) (h16 : regs.r16 < 256) (h17 : regs.r17 < 256) (h18 : regs.r18 < 256)
    (h19 : regs.r19 < 256) (h20 : regs.r20 < 256) (h21 : regs.r21 < 256)
    (s1 s2 s3 s4 s5 s6 rest : List Bool)
    (l1 : s1.length = 8) (l2 : s2.length = 8) (l3 : s3.length = 8)
    (l4 : s4.length = 8) (l5 : s5.length = 8) (l6 : s6.length = 8) :
    read_byte r ([b1, b2, b3, b4, b5, b6, b7, b8] ++ brest) =
      .done ((if b1 then 128 else 0) + (if b2 then 64 else 0) + (if b3 then 32 else 0) +
             (if b4 then 16 else 0) + (if b5 then 8 else 0) + (if b6 then 4 else 0) +
             (if b7 then 2 else 0) + (if b8 then 1 else 0)) brest ∧
    capture_start false regs (s1 ++ (s2 ++ (s3 ++ rest))) =
      .done { regs with r16 := valM 0 s1, r17 := valM 0 s2, r18 := valM 0 s3 } rest ∧
    capture_start true regs (s1 ++ (s2 ++ (s3 ++ (s4 ++ (s5 ++ (s6 ++ rest)))))) =
      .done ⟨valM 0 s1, valM 0 s2, valM 0 s3, valM 0 s4, valM 0 s5, valM 0 s6⟩ rest := by
  refine ⟨?_, capture_one_seg regs h16 h17 h18 s1 s2 s3 rest l1 l2 l3,
          capture_two_seg regs h16 h17 h18 h19 h20 h21 s1 s2 s3 s4 s5 s6 rest
            l1 l2 l3 l4 l5 l6⟩
  rw [read_byte_full [b1, b2, b3, b4, b5, b6, b7, b8] (by simp) r hr brest]
  congr 1
  cases b1 <;> cases b2 <;> cases b3 <;> cases b4 <;>
    cases b5 <;> cases b6 <;> cases b7 <;> cases b8 <;> rfl

theorem c6_msb_first_witness :
    read_byte 0 ([true, false, true, false, false, false, false, true] ++ []) =
      .done ((if true then 128 else 0) + (if false then 64 else 0) + (if true then 32 else 0) +
             (if false then 16 else 0) + (if false then 8 else 0) + (if false then 4 else 0) +
             (if false then 2 else 0) + (if true then 1 else 0)) [] ∧
    capture_start false ⟨0, 0, 0, 0, 0, 0⟩
        (List.replicate 8 false ++ (List.replicate 8 false ++ (List.replicate 8 false ++ []))) =
      .done ⟨valM 0 (List.replicate 8 false), valM 0 (List.replicate 8 false),
             valM 0 (List.replicate 8 false), 0, 0, 0⟩ [] ∧
    capture_start true ⟨0, 0, 0, 0, 0, 0⟩
        (List.replicate 8 false ++ (List.replicate 8 false ++ (List.replicate 8 false ++
          (List.replicate 8 false ++ (List.replicate 8 false ++ (List.replicate 8 false ++ [])))))) =
      .done ⟨valM 0 (List.replicate 8 false), valM 0 (List.replicate 8 false),
             valM 0 (List.replicate 8 false), valM 0 (List.replicate 8 false),
             valM 0 (List.replicate 8 false), valM 0 (List.replicate 8 false)⟩ [] :=
  c6_msb_first 0 (by decide) true false true false false false false true []
    ⟨0, 0, 0, 0, 0, 0⟩ (by decide) (by decide) (by decide) (by decide) (by decide) (by decide)
    (List.replicate 8 false) (List.replicate 8 false) (List.replicate 8 false)
    (List.replicate 8 false) (List.replicate 8 false) (List.replicate 8 false) []
    (by decide) (by decide) (by decide) (by decide) (by decide) (by decide)

/-- Claim C7: in the one-pixel configuration the pixel-2 channel values
are never captured from the wire (`capture_start false` leaves r19,
r20, r21 untouched on every input, completed or blocked); they are set
to the OFF magnitude 255 exactly once, by `start_frame`'s `ldi`s at
power-on — before the reset synchronisation, independent of frame
timing, not per-frame — and every subsequent commit writes 255 to the
pixel-2 duty registers OCR2B, OCR0B, OCR0A, whatever the initial
register contents and however many frames run. -/
theorem c7_second_pixel_off (regs0 regs : Regs) (frames : List (List Bool)) (o : Ocrs)
    (s : List Bool)
    (ho : o ∈ (run_frames false (start_frame false regs0) frames).2) :
    (o.ocr2b = 255 ∧ o.ocr0b = 255 ∧ o.ocr0a = 255) ∧
    ((capture_start false regs s).regs.r19 = regs.r19 ∧
     (capture_start false regs s).regs.r20 = regs.r20 ∧
     (capture_start false regs s).regs.r21 = regs.r21) ∧
    (start_frame false regs0).r19 = 255 ∧ (start_frame false regs0).r20 = 255 ∧
    (start_frame false regs0).r21 = 255 :=
  ⟨run_frames_one_pixel_off frames (start_frame false regs0)
      (by simp [start_frame]) (by simp [start_frame]) (by simp [start_frame]) o ho,
   capture_one_preserve regs s,
   by simp [start_frame], by simp [start_frame], by simp [start_frame]⟩

theorem c7_second_pixel_off_witness :
    ((Ocrs.mk 0 0 0 255 255 255).ocr2b = 255 ∧ (Ocrs.mk 0 0 0 255 255 255).ocr0b = 255 ∧
     (Ocrs.mk 0 0 0 255 255 255).ocr0a = 255) ∧
    ((capture_start false ⟨1, 2, 3, 4, 5, 6⟩ [true]).regs.r19 = (Regs.mk 1 2 3 4 5 6).r19 ∧
     (capture_start false ⟨1, 2, 3, 4, 5, 6⟩ [true]).regs.r20 = (Regs.mk 1 2 3 4 5 6).r20 ∧
     (capture_start false ⟨1, 2, 3, 4, 5, 6⟩ [true]).regs.r21 = (Regs.mk 1 2 3 4 5 6).r21) ∧
    (start_frame false ⟨9, 9, 9, 9, 9, 9⟩).r19 = 255 ∧
    (start_frame false ⟨9, 9, 9, 9, 9, 9⟩).r20 = 255 ∧
    (start_frame false ⟨9, 9, 9, 9, 9, 9⟩).r21 = 255 :=
  c7_second_pixel_off ⟨9, 9, 9, 9, 9, 9⟩ ⟨1, 2, 3, 4, 5, 6⟩ [List.replicate 24 true]
    ⟨0, 0, 0, 255, 255, 255⟩ [true] (by decide)

/-- Claim C8 is false on the code: in the two-pixel configuration there
is no OFF sentinel.  The `ldi 255` initialisation of r19, r20, r21 is
compiled only when `TWO_LEDS` is *not* defined, so when a 2-pixel
capture sees just 24 bits before an idle gap, capture blocks awaiting
bit 25 and the pixel-2 registers keep their prior (power-on) contents —
here 7, not the sentinel magnitude 255. -/
theorem c8_counterexample :
    start_frame true ⟨1, 2, 3, 7, 7, 7⟩ = ⟨1, 2, 3, 7, 7, 7⟩ ∧
    capture_start true ⟨1, 2, 3, 7, 7, 7⟩ sampleFrame24 = .blocked ⟨0, 255, 128, 7, 7, 7⟩ ∧
    (capture_start true ⟨1, 2, 3, 7, 7, 7⟩ sampleFrame24).regs.r19 ≠ 255 ∧
    (capture_start true ⟨1, 2, 3, 7, 7, 7⟩ sampleFrame24).regs.r20 ≠ 255 ∧
    (capture_start true ⟨1, 2, 3, 7, 7, 7⟩ sampleFrame24).regs.r21 ≠ 255 := by
  refine ⟨?_, ?_, ?_, ?_, ?_⟩ <;> decide

/-- Claim C8 (amended): with capture configured for 2 pixels and only
24 bits transmitted before an unexpected idle gap, the first pixel's
three channel bytes populate correctly from those 24 bits, capture
blocks at pixel 2's first bit (the idle gap is not detected during
capture, so no commit fires for the truncated frame), and the second
pixel's channel registers are left exactly as they were — never
partially overwritten, but holding their prior contents rather than an
off sentinel, which does not exist in this configuration. -/
theorem c8_amended (regs : Regs) (h16 : regs.r16 < 256) (h17 : regs.r17 < 256)
    (h18 : regs.r18 < 256) (s1 s2 s3 : List Bool)
    (l1 : s1.length = 8) (l2 : s2.length = 8) (l3 : s3.length = 8) :
    capture_start true regs (s1 ++ (s2 ++ s3)) =
      .blocked { regs with r16 := valM 0 s1, r17 := valM 0 s2, r18 := valM 0 s3 } :=
  capture_two_seg24 regs h16 h17 h18 s1 s2 s3 l1 l2 l3

theorem c8_amended_witness :
    capture_start true ⟨1, 2, 3, 7, 7, 7⟩
        (List.replicate 8 false ++ (List.replicate 8 true ++ (true :: List.replicate 7 false))) =
      .blocked ⟨valM 0 (List.replicate 8 false), valM 0 (List.replicate 8 true),
                valM 0 (true :: List.replicate 7 false), 7, 7, 7⟩ :=
  c8_amended ⟨1, 2, 3, 7, 7, 7⟩ (by decide) (by decide) (by decide)
    (List.replicate 8 false) (List.replicate 8 true) (true :: List.replicate 7 false)
    (by decide) (by decide) (by decide)

/-- Claim C9: commit is idempotent across frames.  Two consecutive
frames carrying identical channel bits produce identical committed duty
values, in both configurations: the committed `Ocrs` are a function of
the current frame's captured bytes only, because every `READ_BYTE`
shifts its register's previous 8 bits fully out and, in the one-pixel
build, r19, r20, r21 are never touched between commits. -/
theorem c9_commit_idempotent (regs : Regs)
    (h16 : regs.r16 < 256) (h17 : regs.r17 < 256) (h18 : regs.r18 < 256)
    (h19 : regs.r19 < 256) (h20 : regs.r20 < 256) (h21 : regs.r21 < 256)
    (s1 s2 s3 s4 s5 s6 : List Bool)
    (l1 : s1.length = 8) (l2 : s2.length = 8) (l3 : s3.length = 8)
    (l4 : s4.length = 8) (l5 : s5.length = 8) (l6 : s6.length = 8) :
    (∃ o : Ocrs,
      (run_frames false regs
        [s1 ++ (s2 ++ (s3 ++ [])), s1 ++ (s2 ++ (s3 ++ []))]).2 = [o, o]) ∧
    (∃ o : Ocrs,
      (run_frames true regs
        [s1 ++ (s2 ++ (s3 ++ (s4 ++ (s5 ++ (s6 ++ []))))),
         s1 ++ (s2 ++ (s3 ++ (s4 ++ (s5 ++ (s6 ++ [])))))]).2 = [o, o]) := by
  constructor
  · have hc1 := capture_one_seg regs h16 h17 h18 s1 s2 s3 [] l1 l2 l3
    have hc2 := capture_one_seg ⟨com (valM 0 s1), com (valM 0 s2), com (valM 0 s3),
        regs.r19, regs.r20, regs.r21⟩ (com_lt _) (com_lt _) (com_lt _) s1 s2 s3 [] l1 l2 l3
    simp only [List.append_nil] at hc1 hc2
    exact ⟨(update_now false ⟨valM 0 s1, valM 0 s2, valM 0 s3,
        regs.r19, regs.r20, regs.r21⟩).2, by simp [run_frames, hc1, hc2, update_now]⟩
  · have hc1 := capture_two_seg regs h16 h17 h18 h19 h20 h21 s1 s2 s3 s4 s5 s6 []
        l1 l2 l3 l4 l5 l6
    have hc2 := capture_two_seg ⟨com (valM 0 s1), com (valM 0 s2), com (valM 0 s3),
        com (valM 0 s4), com (valM 0 s5), com (valM 0 s6)⟩ (com_lt _) (com_lt _) (com_lt _)
        (com_lt _) (com_lt _) (com_lt _) s1 s2 s3 s4 s5 s6 [] l1 l2 l3 l4 l5 l6
    simp only [List.append_nil] at hc1 hc2
    exact ⟨(update_now true ⟨valM 0 s1, valM 0 s2, valM 0 s3,
        valM 0 s4, valM 0 s5, valM 0 s6⟩).2, by simp [run_frames, hc1, hc2, update_now]⟩

theorem c9_commit_idempotent_witness :
    (∃ o : Ocrs,
      (run_frames false ⟨0, 0, 0, 0, 0, 0⟩
        [List.replicate 8 true ++ (List.replicate 8 true ++ (List.replicate 8 true ++ [])),
         List.replicate 8 true ++ (List.replicate 8 true ++ (List.replicate 8 true ++ []))]).2 =
        [o, o]) ∧
    (∃ o : Ocrs,
      (run_frames true ⟨0, 0, 0, 0, 0, 0⟩
        [List.replicate 8 true ++ (List.replicate 8 true ++ (List.replicate 8 true ++
          (List.replicate 8 true ++ (List.replicate 8 true ++ (List.replicate 8 true ++ []))))),
         List.replicate 8 true ++ (List.replicate 8 true ++ (List.replicate 8 true ++
          (List.replicate 8 true ++ (List.replicate 8 true ++ (List.replicate 8 true ++ [])))))]).2 =
        [o, o]) :=
  c9_commit_idempotent ⟨0, 0, 0, 0, 0, 0⟩ (by decide) (by decide) (by decide)
    (by decide) (by decide) (by decide)
    (List.replicate 8 true) (List.replicate 8 true) (List.replicate 8 true)
    (List.replicate 8 true) (List.replicate 8 true) (List.replicate 8 true)
    (by decide) (by decide) (by decide) (by decide) (by decide) (by decide)

/-- Claim C10: in the two-pixel configuration the only writes to the
pixel-2 channel registers are the 48-bit capture (bits 25-48) and the
commit-phase inversion: `start_frame` does not initialise them (no off
sentinel), a frame of at most 24 bits leaves them exactly as they were
(power-on contents), the committed values of a full 48-bit frame are
determined solely by the frame's bits (independent of the register
contents the frame started with), and the commit inverts r19 as
`255 - r19` into both the register file and the OCR0B duty. -/
theorem c10_pixel2_registers (regs regsB : Regs)
    (h16 : regs.r16 < 256) (h17 : regs.r17 < 256) (h18 : regs.r18 < 256)
    (h19 : regs.r19 < 256) (h20 : regs.r20 < 256) (h21 : regs.r21 < 256)
    (hB16 : regsB.r16 < 256) (hB17 : regsB.r17 < 256) (hB18 : regsB.r18 < 256)
    (hB19 : regsB.r19 < 256) (hB20 : regsB.r20 < 256) (hB21 : regsB.r21 < 256)
    (s24 : List Bool) (hlen : s24.length ≤ 24)
    (s1 s2 s3 s4 s5 s6 : List Bool)
    (l1 : s1.length = 8) (l2 : s2.length = 8) (l3 : s3.length = 8)
    (l4 : s4.length = 8) (l5 : s5.length = 8) (l6 : s6.length = 8) :
    start_frame true regs = regs ∧
    ((capture_start true regs s24).regs.r19 = regs.r19 ∧
     (capture_start true regs s24).regs.r20 = regs.r20 ∧
     (capture_start true regs s24).regs.r21 = regs.r21) ∧
    (run_frames true regs
        [s1 ++ (s2 ++ (s3 ++ (s4 ++ (s5 ++ (s6 ++ [])))))]).2 =
      (run_frames true regsB
        [s1 ++ (s2 ++ (s3 ++ (s4 ++ (s5 ++ (s6 ++ [])))))]).2 ∧
    (update_now true regs).1.r19 = 255 - regs.r19 % 256 ∧
    (update_now true regs).2.ocr0b = 255 - regs.r19 % 256 := by
  refine ⟨by simp [start_frame], capture_two_preserve_le24 regs s24 hlen, ?_,
    by simp [update_now, com], by simp [update_now, com]⟩
  have hcA := capture_two_seg regs h16 h17 h18 h19 h20 h21 s1 s2 s3 s4 s5 s6 []
      l1 l2 l3 l4 l5 l6
  have hcB := capture_two_seg regsB hB16 hB17 hB18 hB19 hB20 hB21 s1 s2 s3 s4 s5 s6 []
      l1 l2 l3 l4 l5 l6
  simp only [List.append_nil] at hcA hcB
  simp [run_frames, hcA, hcB]

theorem c10_pixel2_registers_witness :
    start_frame true ⟨1, 2, 3, 4, 5, 6⟩ = ⟨1, 2, 3, 4, 5, 6⟩ ∧
    ((capture_start true ⟨1, 2, 3, 4, 5, 6⟩ (List.replicate 24 true)).regs.r19 =
        (Regs.mk 1 2 3 4 5 6).r19 ∧
     (capture_start true ⟨1, 2, 3, 4, 5, 6⟩ (List.replicate 24 true)).regs.r20 =
        (Regs.mk 1 2 3 4 5 6).r20 ∧
     (capture_start true ⟨1, 2, 3, 4, 5, 6⟩ (List.replicate 24 true)).regs.r21 =
        (Regs.mk 1 2 3 4 5 6).r21) ∧
    (run_frames true ⟨1, 2, 3, 4, 5, 6⟩
        [List.replicate 8 false ++ (List.replicate 8 false ++ (List.replicate 8 false ++
          (List.replicate 8 false ++ (List.replicate 8 false ++ (List.replicate 8 false ++ [])))))]).2 =
      (run_frames true ⟨7, 8, 9, 10, 11, 12⟩
        [List.replicate 8 false ++ (List.replicate 8 false ++ (List.replicate 8 false ++
          (List.replicate 8 false ++ (List.replicate 8 false ++ (List.replicate 8 false ++ [])))))]).2 ∧
    (update_now true ⟨1, 2, 3, 4, 5, 6⟩).1.r19 = 255 - (Regs.mk 1 2 3 4 5 6).r19 % 256 ∧
    (update_now true ⟨1, 2, 3, 4, 5, 6⟩).2.ocr0b = 255 - (Regs.mk 1 2 3 4 5 6).r19 % 256 :=
  c10_pixel2_registers ⟨1, 2, 3, 4, 5, 6⟩ ⟨7, 8, 9, 10, 11, 12⟩
    (by decide) (by decide) (by decide) (by decide) (by decide) (by decide)
    (by decide) (by decide) (by decide) (by decide) (by decide) (by decide)
    (List.replicate 24 true) (by decide)
    (List.replicate 8 false) (List.replicate 8 false) (List.replicate 8 false)
    (List.replicate 8 false) (List.replicate 8 false) (List.replicate 8 false)
    (by decide) (by decide) (by decide) (by decide) (by decide) (by decide)
